import Mathlib

/-
Shallow embedding of `src/src/main.rs` of the rustcanbus-canalyst-ii
repository: a CANalyst-II test program that opens a CAN device, configures
and starts two channels, then runs a transmitter thread, a receiver thread
and a keyboard (Ctrl+X) cancellation watcher sharing an atomic flag, joins
them, and closes the device.

The vendor driver (ControlCAN.dll) is external; it is modelled as an
oracle `Driver` giving the integer status / frame responses of each call.
Terminal raw-mode toggling and the exact text of format-string prints are
external-terminal effects; prints relevant to the claims are modelled as
structured events.
-/

namespace Canalyst

/-- VciCanObj mirrors the repr C struct of main.rs: id, time_stamp,
time_flag, send_type, remote_flag, extern_flag (here extFlag), data_len,
data (an 8-byte array, modelled as a list whose length is 8), reserved
(3 bytes). All byte and word fields are Nat. -/
structure VciCanObj where
  id : Nat
  timeStamp : Nat
  timeFlag : Nat
  sendType : Nat
  remoteFlag : Nat
  extFlag : Nat
  dataLen : Nat
  data : List Nat
  reserved : List Nat
deriving DecidableEq

/-- VciCanObj.Default in main.rs: all fields zero, data an 8-byte zero
array, reserved a 3-byte zero array. -/
def VciCanObj.default : VciCanObj :=
  ⟨0, 0, 0, 0, 0, 0, 0, List.replicate 8 0, List.replicate 3 0⟩

/-- VciInitConfig mirrors the repr C struct of main.rs: acc_code,
acc_mask, reserved, filter, timing0, timing1, mode. -/
structure VciInitConfig where
  accCode : Nat
  accMask : Nat
  reserved : Nat
  filter : Nat
  timing0 : Nat
  timing1 : Nat
  mode : Nat
deriving DecidableEq

/-- The constants of main: dev_type = 4. -/
def devType : Nat := 4

/-- dev_index = 0. -/
def devIndex : Nat := 0

/-- can1 = 0 (first channel id). -/
def can1 : Nat := 0

/-- can2 = 1 (second channel id). -/
def can2 : Nat := 1

/-- reserved argument of VCI_OpenDevice = 0. -/
def reservedArg : Nat := 0

/-- The channel configuration built in main: acc_code 0, acc_mask
0xFFFFFFFF, reserved 0, filter 1, timing0 0x01, timing1 0x1C, mode 0. -/
def config : VciInitConfig := ⟨0, 0xFFFFFFFF, 0, 1, 0x01, 0x1C, 0⟩

/-- Oracle for the external ControlCAN driver: the integer status returned
by each call. initCan and startCan are indexed by channel, transmit by the
payload value of the frame being sent (each value is sent exactly once),
receive by the ordinal of the receive call, returning the frame count and
the buffer contents the driver produced. -/
structure Driver where
  openDevice : Int
  initCan : Nat → Int
  closeDevice : Int
  startCan : Nat → Int
  transmit : Nat → Int
  receive : Nat → Int × VciCanObj

/-- Externally visible events of the sequential skeleton of main: driver
calls with their arguments, println lines, te spawn/join block of the
three threads (refined separately by the `Sys` small-step model), and the
close call carrying the (discarded) status the driver returned. -/
inductive MainEv where
  | openCall (devType devIndex reservedArg : Nat)
  | line (s : String)
  | initCall (devType devIndex ch : Nat) (cfg : VciInitConfig)
  | startCall (devType devIndex ch : Nat)
  | runActivities
  | closeCall (devType devIndex : Nat) (status : Int)
deriving DecidableEq

/-- The sequential skeleton of `main`, translated step by step from
main.rs: open; on non-1 status print and return Ok. Then init channel 0,
init channel 1, start channel 0, start channel 1, each with an early
`return Ok(())` printing a failure line on a non-1 status. On full
success the three threads run and are joined (`runActivities`), then
VCI_CloseDevice is called with its status discarded, "Device closed" is
printed, and `Ok(())` is returned. Every path returns `Except.ok ()`. -/
def mainRun (d : Driver) : List MainEv × Except String Unit :=
  let ev0 := [MainEv.openCall devType devIndex reservedArg]
  if d.openDevice ≠ 1 then (ev0 ++ [MainEv.line "Failed to open device"], Except.ok ()) else
  let ev1 := ev0 ++ [MainEv.line "Device opened successfully",
                     MainEv.initCall devType devIndex can1 config]
  if d.initCan can1 ≠ 1 then (ev1 ++ [MainEv.line "Failed to initialize CAN1"], Except.ok ()) else
  let ev2 := ev1 ++ [MainEv.initCall devType devIndex can2 config]
  if d.initCan can2 ≠ 1 then (ev2 ++ [MainEv.line "Failed to initialize CAN2"], Except.ok ()) else
  let ev3 := ev2 ++ [MainEv.line "CAN1 & CAN2 initialized successfully (250kbps)",
                     MainEv.startCall devType devIndex can1]
  if d.startCan can1 ≠ 1 then (ev3 ++ [MainEv.line "Failed to start CAN1"], Except.ok ()) else
  let ev4 := ev3 ++ [MainEv.startCall devType devIndex can2]
  if d.startCan can2 ≠ 1 then (ev4 ++ [MainEv.line "Failed to start CAN2"], Except.ok ()) else
  let ev5 := ev4 ++ [MainEv.line "CAN1 & CAN2 started. Ready for transmission and reception",
                     MainEv.runActivities,
                     MainEv.closeCall devType devIndex d.closeDevice,
                     MainEv.line "Device closed"]
  (ev5, Except.ok ())

/-- Recognizes the VCI_CloseDevice call event. -/
def isCloseCallEv : MainEv → Bool
  | MainEv.closeCall _ _ _ => true
  | _ => false

/-- Recognizes the spawn-and-join block event. -/
def isRunActivities : MainEv → Bool
  | MainEv.runActivities => true
  | _ => false

/-- Recognizes a println event. -/
def isLineEv : MainEv → Bool
  | MainEv.line _ => true
  | _ => false

/-- Recognizes a channel setup call (VCI_InitCAN or VCI_StartCAN). -/
def isSetupCall : MainEv → Bool
  | MainEv.initCall _ _ _ _ => true
  | MainEv.startCall _ _ _ => true
  | _ => false

/-- The full setup-call sequence of a successful run, in program order. -/
def setupCallSeq : List MainEv :=
  [MainEv.initCall devType devIndex can1 config,
   MainEv.initCall devType devIndex can2 config,
   MainEv.startCall devType devIndex can1,
   MainEv.startCall devType devIndex can2]

/-- A driver for which every call succeeds (and receive finds nothing). -/
def dAllOk : Driver :=
  ⟨1, fun _ => 1, 1, fun _ => 1, fun _ => 1, fun _ => (0, VciCanObj.default)⟩

/-- A driver whose open succeeds and whose VCI_InitCAN fails on every
channel (in particular on channel 0, the first one main initializes). -/
def dInitFail : Driver :=
  ⟨1, fun _ => 0, 1, fun _ => 1, fun _ => 1, fun _ => (0, VciCanObj.default)⟩

/-- A driver for which setup succeeds but VCI_CloseDevice fails. -/
def dCloseFail : Driver :=
  ⟨1, fun _ => 1, 0, fun _ => 1, fun _ => 1, fun _ => (0, VciCanObj.default)⟩

/-- A driver for which setup succeeds but every VCI_Transmit fails
(returns 0 frames sent). -/
def dTxFail : Driver :=
  ⟨1, fun _ => 1, 1, fun _ => 1, fun _ => 0, fun _ => (0, VciCanObj.default)⟩

/-- Replace a driver's close status, leaving every other response alone. -/
def withClose (d : Driver) (st : Int) : Driver :=
  ⟨d.openDevice, d.initCan, st, d.startCan, d.transmit, d.receive⟩

/-- Events of the transmit thread: the VCI_Transmit call with its
arguments (frame pointer modelled as the frame value, frame count 1), the
"CAN1 sent" success line, and the pacing sleep. -/
inductive TxEv where
  | transmitCall (devType devIndex ch : Nat) (frame : VciCanObj) (frameCount : Nat)
  | sentLine (v : Nat)
  | sleepMs (ms : Nat)
deriving DecidableEq

/-- The frame built for payload value v in transmit_thread: id 0x1,
data_len 1, data [v,0,0,0,0,0,0,0], all other fields defaulted. -/
def txFrame (v : Nat) : VciCanObj :=
  ⟨0x1, 0, 0, 0, 0, 0, 1, [v, 0, 0, 0, 0, 0, 0, 0], List.replicate 3 0⟩

/-- One iteration of the transmit loop body for payload value v: one
VCI_Transmit call for one frame on channel can1; if the returned count is
positive, the "CAN1 sent: v" line; then a 10 ms sleep. The shared flag is
never consulted. -/
def txIter (d : Driver) (v : Nat) : List TxEv :=
  let sentFrames := d.transmit v
  [TxEv.transmitCall devType devIndex can1 (txFrame v) 1] ++
    (if sentFrames > 0 then [TxEv.sentLine v] else []) ++ [TxEv.sleepMs 10]

/-- The whole transmit thread: `for data in 1..=255` over the loop body.
`List.range' 1 255` is exactly the values 1,2,...,255 in order. -/
def transmitThread (d : Driver) : List TxEv :=
  (List.range' 1 255).flatMap (txIter d)

/-- Recognizes a VCI_Transmit call event. -/
def isTxCall : TxEv → Bool
  | TxEv.transmitCall _ _ _ _ _ => true
  | _ => false

/-- Recognizes a "CAN1 sent" success line. -/
def isSentLine : TxEv → Bool
  | TxEv.sentLine _ => true
  | _ => false

/-- The frame argument of a transmit-call event, if the event is one. -/
def txCallFrame : TxEv → Option VciCanObj
  | TxEv.transmitCall _ _ _ f _ => some f
  | _ => none

/-- The frames passed to VCI_Transmit, in call order. -/
def txCallFrames (L : List TxEv) : List VciCanObj := L.filterMap txCallFrame

/-- First payload byte of a frame (the value the transmitter encodes). -/
def payloadByte (f : VciCanObj) : Nat := f.data.headD 0

/-- Key codes of the crossterm events read by the keyboard thread; only
the character constructor matters for the Ctrl+X test. -/
inductive KeyCode where
  | char (c : Char)
  | other
deriving DecidableEq

/-- Modifier set of a key event; `contains(KeyModifiers::CONTROL)` is the
ctrl field being true, whatever the other bits are. -/
structure Modifiers where
  ctrl : Bool
  shiftMod : Bool
  altMod : Bool
deriving DecidableEq

/-- One poll outcome of the keyboard thread: the 100 ms poll timed out,
or event::read returned a non-key event, or it returned a key event. -/
inductive InputEv where
  | timeout
  | nonKey
  | key (code : KeyCode) (mods : Modifiers)
deriving DecidableEq

/-- Oracle for the terminal input stream, indexed by the ordinal of the
poll call the keyboard thread makes. -/
def KbOracle := Nat → InputEv

/-- Externally visible events (labels) of the concurrent phase: driver
calls with their arguments, the structured counterparts of the println
calls, atomic-flag stores, thread joins by main, and sleeps. -/
inductive Label where
  | transmitCall (devType devIndex ch : Nat) (frame : VciCanObj) (frameCount : Nat)
  | sentLine (v : Nat)
  | sleepMs (ms : Nat)
  | receiveCall (devType devIndex ch maxFrames : Nat) (timeoutMs : Int)
  | reportLine (id : Nat) (payload : List Nat)
  | rxOutOfBounds
  | pollCall (timeoutMs : Nat)
  | cancelLine
  | storeFlag (b : Bool)
  | joinTx
  | joinRx
  | joinKb
  | mainAborted
  | closeCall (devType devIndex : Nat) (status : Int)
  | closedLine
deriving DecidableEq

/-- Program counter of the main thread after spawning: it joins the
transmit, receive and keyboard threads in that order, then closes. The
`aborted` state models main's own unwrap panic when a joined thread
panicked (the slice out of bounds in the receiver); close is never
reached there. -/
inductive MainPC where
  | joinTx
  | joinRx
  | joinKb
  | closing
  | finished
  | aborted
deriving DecidableEq

/-- Global state of the concurrent phase: the shared atomic `running`
flag, the transmitter's next payload value and completion flag, the
receiver's call counter, completion and panic flags, the keyboard
thread's poll counter and completion flag, and main's program counter. -/
structure Sys where
  running : Bool
  txIdx : Nat
  txDone : Bool
  rxCount : Nat
  rxDone : Bool
  rxPanicFlag : Bool
  kbCount : Nat
  kbDone : Bool
  pc : MainPC
deriving DecidableEq

/-- State at Running entry: flag true (not cancelled), transmitter about
to send value 1, all threads live, main about to join the transmitter. -/
def initSys : Sys := ⟨true, 1, false, 0, false, false, 0, false, MainPC.joinTx⟩

/-- The receiver's report slice `&recv_obj.data[..recv_obj.data_len]`:
defined (some) exactly when data_len is within the 8-byte array bound,
none modelling the Rust slice panic. -/
def payloadSlice (obj : VciCanObj) : Option (List Nat) :=
  if obj.dataLen ≤ obj.data.length then some (obj.data.take obj.dataLen) else none

/-- One scheduler step of the transmit thread, none when the thread has
finished. While the loop variable is at most 255 it makes one
VCI_Transmit call for one frame, prints the success line if the returned
count is positive, sleeps 10 ms and advances; past 255 the loop ends.
The shared flag is never read: no branch consults `running`. -/
def txStepF (d : Driver) (s : Sys) : Option (Sys × List Label) :=
  if s.txDone then none
  else if s.txIdx ≤ 255 then
    some ({ s with txIdx := s.txIdx + 1 },
      [Label.transmitCall devType devIndex can1 (txFrame s.txIdx) 1] ++
        (if d.transmit s.txIdx > 0 then [Label.sentLine s.txIdx] else []) ++
        [Label.sleepMs 10])
  else some ({ s with txDone := true }, [])

/-- One scheduler step of the receive thread, none when it has finished
or panicked. At the loop head it reads the shared flag: if false the
loop ends. Otherwise one VCI_Receive call for at most 1 frame with a
500 ms timeout; on a positive frame count it prints id and the payload
slice (panicking if data_len exceeds the array bound), then sleeps 5 ms
and loops. -/
def rxStepF (d : Driver) (s : Sys) : Option (Sys × List Label) :=
  if s.rxDone ∨ s.rxPanicFlag then none
  else if s.running then
    let resp := d.receive s.rxCount
    if resp.1 > 0 then
      match payloadSlice resp.2 with
      | some p => some ({ s with rxCount := s.rxCount + 1 },
          [Label.receiveCall devType devIndex can1 1 500,
           Label.reportLine resp.2.id p, Label.sleepMs 5])
      | none => some ({ s with rxPanicFlag := true },
          [Label.receiveCall devType devIndex can1 1 500, Label.rxOutOfBounds])
    else some ({ s with rxCount := s.rxCount + 1 },
      [Label.receiveCall devType devIndex can1 1 500, Label.sleepMs 5])
  else some ({ s with rxDone := true }, [])

/-- One scheduler step of the keyboard thread, none when it has finished.
At the loop head it reads the shared flag: if false the loop ends.
Otherwise one 100 ms-bounded poll; a key event with code Char x and the
CONTROL modifier prints the detection line, stores false into the shared
flag and breaks; any other poll outcome leaves the flag alone and loops. -/
def kbStepF (ko : KbOracle) (s : Sys) : Option (Sys × List Label) :=
  if s.kbDone then none
  else if s.running then
    match ko s.kbCount with
    | InputEv.timeout => some ({ s with kbCount := s.kbCount + 1 }, [Label.pollCall 100])
    | InputEv.nonKey => some ({ s with kbCount := s.kbCount + 1 }, [Label.pollCall 100])
    | InputEv.key code mods =>
      if code = KeyCode.char 'x' ∧ mods.ctrl = true then
        some ({ s with running := false, kbDone := true, kbCount := s.kbCount + 1 },
          [Label.pollCall 100, Label.cancelLine, Label.storeFlag false])
      else some ({ s with kbCount := s.kbCount + 1 }, [Label.pollCall 100])
  else some ({ s with kbDone := true }, [])

/-- One scheduler step of the main thread after spawning: join the
transmit thread, join the receive thread (unwrap panics, aborting main
before any close, if the receiver panicked), join the keyboard thread,
then call VCI_CloseDevice once, discarding its status, and print the
closing line. A join only fires when the joined thread has finished. -/
def mainStepF (d : Driver) (s : Sys) : Option (Sys × List Label) :=
  match s.pc with
  | MainPC.joinTx =>
      if s.txDone then some ({ s with pc := MainPC.joinRx }, [Label.joinTx]) else none
  | MainPC.joinRx =>
      if s.rxPanicFlag then
        some ({ s with pc := MainPC.aborted }, [Label.joinRx, Label.mainAborted])
      else if s.rxDone then some ({ s with pc := MainPC.joinKb }, [Label.joinRx])
      else none
  | MainPC.joinKb =>
      if s.kbDone then some ({ s with pc := MainPC.closing }, [Label.joinKb]) else none
  | MainPC.closing =>
      some ({ s with pc := MainPC.finished },
        [Label.closeCall devType devIndex d.closeDevice, Label.closedLine])
  | MainPC.finished => none
  | MainPC.aborted => none

/-- Thread identifiers for the scheduler. -/
inductive Tid where
  | tx
  | rx
  | kb
  | mainT
deriving DecidableEq

/-- Step function of each thread. -/
def threadStepF (d : Driver) (ko : KbOracle) : Tid → Sys → Option (Sys × List Label)
  | Tid.tx => txStepF d
  | Tid.rx => rxStepF d
  | Tid.kb => kbStepF ko
  | Tid.mainT => mainStepF d

/-- Interleaved small-step relation: at any moment any of the four
threads whose step function is enabled may take its step, emitting its
labels. This quantifies over every interleaving of the four threads. -/
inductive Step (d : Driver) (ko : KbOracle) : Sys → List Label → Sys → Prop where
  | tx : ∀ s s' ls, txStepF d s = some (s', ls) → Step d ko s ls s'
  | rx : ∀ s s' ls, rxStepF d s = some (s', ls) → Step d ko s ls s'
  | kb : ∀ s s' ls, kbStepF ko s = some (s', ls) → Step d ko s ls s'
  | mn : ∀ s s' ls, mainStepF d s = some (s', ls) → Step d ko s ls s'

/-- Finite executions of the interleaved system, accumulating labels. -/
inductive Trace (d : Driver) (ko : KbOracle) : Sys → List Label → Sys → Prop where
  | nil : ∀ s, Trace d ko s [] s
  | cons : ∀ s ls s' L s'', Step d ko s ls s' → Trace d ko s' L s'' →
      Trace d ko s (ls ++ L) s''

/-- Deterministic scheduler: run the listed threads in order, skipping a
thread whose step is not enabled; returns the final state and the labels
emitted. Used to build concrete executions of the step relation. -/
def exec (d : Driver) (ko : KbOracle) : List Tid → Sys → Sys × List Label
  | [], s => (s, [])
  | t :: ts, s =>
    match threadStepF d ko t s with
    | none => exec d ko ts s
    | some (s', ls) =>
      let r := exec d ko ts s'
      (r.1, ls ++ r.2)

/-- Recognizes a VCI_CloseDevice call label. -/
def isClose : Label → Bool
  | Label.closeCall _ _ _ => true
  | _ => false

/-- Recognizes a join label. -/
def isJoin : Label → Bool
  | Label.joinTx => true
  | Label.joinRx => true
  | Label.joinKb => true
  | _ => false

/-- Recognizes a VCI_Receive call label. -/
def isReceiveCall : Label → Bool
  | Label.receiveCall _ _ _ _ _ => true
  | _ => false

/-- The payload value of a transmit-call label, if the label is one. -/
def txPayload : Label → Option Nat
  | Label.transmitCall _ _ _ f _ => f.data.head?
  | _ => none

/-- The join labels main has emitted by the time its pc has a given
value. -/
def joinsOf : MainPC → List Label
  | MainPC.joinTx => []
  | MainPC.joinRx => [Label.joinTx]
  | MainPC.joinKb => [Label.joinTx, Label.joinRx]
  | MainPC.closing => [Label.joinTx, Label.joinRx, Label.joinKb]
  | MainPC.finished => [Label.joinTx, Label.joinRx, Label.joinKb]
  | MainPC.aborted => [Label.joinTx, Label.joinRx]

/-- How many close calls main has made by the time its pc has a given
value. -/
def closeCountOf (pc : MainPC) : Nat := if pc = MainPC.finished then 1 else 0

/-- Sanity bounds on the transmitter's loop variable. -/
def txIdxOk (s : Sys) : Prop :=
  1 ≤ s.txIdx ∧ s.txIdx ≤ 256 ∧ (s.txDone = true → s.txIdx = 256)

/-- Main's pc only advances past a join once the joined thread is done;
it only aborts after the receiver panicked. -/
def pcDoneOk (s : Sys) : Prop :=
  (s.pc = MainPC.joinRx → s.txDone = true) ∧
  (s.pc = MainPC.joinKb → s.txDone = true ∧ s.rxDone = true) ∧
  (s.pc = MainPC.closing → s.txDone = true ∧ s.rxDone = true ∧ s.kbDone = true) ∧
  (s.pc = MainPC.finished → s.txDone = true ∧ s.rxDone = true ∧ s.kbDone = true) ∧
  (s.pc = MainPC.aborted → s.txDone = true ∧ s.rxPanicFlag = true)

/-- Invariant tying the labels emitted so far to the current state: the
transmitted payloads are exactly 1..txIdx-1 in order, the close calls
and joins emitted match main's pc. -/
def TraceInv (L : List Label) (s : Sys) : Prop :=
  txIdxOk s ∧ pcDoneOk s ∧
  L.filterMap txPayload = List.range' 1 (s.txIdx - 1) ∧
  L.countP isClose = closeCountOf s.pc ∧
  L.filter isJoin = joinsOf s.pc

/-- Updating only the shared flag of a state (used to state that the
transmitter never reads it). -/
def setRunning (s : Sys) (b : Bool) : Sys := { s with running := b }

/-- The transmitter-observable part of a step result: its loop variable,
its completion flag, and the labels it emits. -/
def txObs : Option (Sys × List Label) → Option (Nat × Bool × List Label)
  | none => none
  | some (s, ls) => some (s.txIdx, s.txDone, ls)

/-- Input oracle that presses Ctrl+X at every poll. -/
def koCtrlX : KbOracle := fun _ => InputEv.key (KeyCode.char 'x') ⟨true, false, false⟩

/-- A schedule that lets the keyboard thread cancel, the receiver exit,
the transmitter run to completion, then main join everything and close. -/
def schedFull : List Tid :=
  Tid.kb :: Tid.rx :: (List.replicate 256 Tid.tx ++
    [Tid.mainT, Tid.mainT, Tid.mainT, Tid.mainT])

/-- The frame of the end-to-end scenario of the spec: id 0x1, data_len 1,
payload byte 7. -/
def obj7 : VciCanObj :=
  ⟨0x1, 0, 0, 0, 0, 0, 1, [7, 0, 0, 0, 0, 0, 0, 0], List.replicate 3 0⟩

/-- A driver whose first receive call returns one copy of obj7 and whose
later receive calls return nothing; every other call succeeds. -/
def dRecv7 : Driver :=
  ⟨1, fun _ => 1, 1, fun _ => 1, fun _ => 1,
   fun n => if n = 0 then (1, obj7) else (0, VciCanObj.default)⟩

/-- A malformed frame whose data_len 9 exceeds the 8-byte array. -/
def objBad : VciCanObj :=
  ⟨0x2, 0, 0, 0, 0, 0, 9, [1, 2, 3, 4, 5, 6, 7, 8], List.replicate 3 0⟩

/-- A driver whose receive calls always return one copy of objBad. -/
def dRecvBad : Driver :=
  ⟨1, fun _ => 1, 1, fun _ => 1, fun _ => 1, fun _ => (1, objBad)⟩

/-- Event list of the run in which VCI_OpenDevice fails. -/
def trOpenFail : List MainEv :=
  [MainEv.openCall devType devIndex reservedArg, MainEv.line "Failed to open device"]

/-- Event list of the run in which VCI_InitCAN fails on channel 0. -/
def trInit1Fail : List MainEv :=
  [MainEv.openCall devType devIndex reservedArg, MainEv.line "Device opened successfully",
   MainEv.initCall devType devIndex can1 config, MainEv.line "Failed to initialize CAN1"]

/-- Event list of the run in which VCI_InitCAN fails on channel 1. -/
def trInit2Fail : List MainEv :=
  [MainEv.openCall devType devIndex reservedArg, MainEv.line "Device opened successfully",
   MainEv.initCall devType devIndex can1 config, MainEv.initCall devType devIndex can2 config,
   MainEv.line "Failed to initialize CAN2"]

/-- Event list of the run in which VCI_StartCAN fails on channel 0. -/
def trStart1Fail : List MainEv :=
  [MainEv.openCall devType devIndex reservedArg, MainEv.line "Device opened successfully",
   MainEv.initCall devType devIndex can1 config, MainEv.initCall devType devIndex can2 config,
   MainEv.line "CAN1 & CAN2 initialized successfully (250kbps)",
   MainEv.startCall devType devIndex can1, MainEv.line "Failed to start CAN1"]

/-- Event list of the run in which VCI_StartCAN fails on channel 1. -/
def trStart2Fail : List MainEv :=
  [MainEv.openCall devType devIndex reservedArg, MainEv.line "Device opened successfully",
   MainEv.initCall devType devIndex can1 config, MainEv.initCall devType devIndex can2 config,
   MainEv.line "CAN1 & CAN2 initialized successfully (250kbps)",
   MainEv.startCall devType devIndex can1, MainEv.startCall devType devIndex can2,
   MainEv.line "Failed to start CAN2"]

/-- Event list of the fully successful run, parametrized by the status
VCI_CloseDevice returned (the program discards it). -/
def trFull (st : Int) : List MainEv :=
  [MainEv.openCall devType devIndex reservedArg, MainEv.line "Device opened successfully",
   MainEv.initCall devType devIndex can1 config, MainEv.initCall devType devIndex can2 config,
   MainEv.line "CAN1 & CAN2 initialized successfully (250kbps)",
   MainEv.startCall devType devIndex can1, MainEv.startCall devType devIndex can2,
   MainEv.line "CAN1 & CAN2 started. Ready for transmission and reception",
   MainEv.runActivities, MainEv.closeCall devType devIndex st, MainEv.line "Device closed"]

theorem mainRun_cases (d : Driver) :
    (d.openDevice ≠ 1 ∧ mainRun d = (trOpenFail, Except.ok ())) ∨
    (d.openDevice = 1 ∧ d.initCan can1 ≠ 1 ∧ mainRun d = (trInit1Fail, Except.ok ())) ∨
    (d.openDevice = 1 ∧ d.initCan can1 = 1 ∧ d.initCan can2 ≠ 1 ∧
      mainRun d = (trInit2Fail, Except.ok ())) ∨
    (d.openDevice = 1 ∧ d.initCan can1 = 1 ∧ d.initCan can2 = 1 ∧ d.startCan can1 ≠ 1 ∧
      mainRun d = (trStart1Fail, Except.ok ())) ∨
    (d.openDevice = 1 ∧ d.initCan can1 = 1 ∧ d.initCan can2 = 1 ∧ d.startCan can1 = 1 ∧
      d.startCan can2 ≠ 1 ∧ mainRun d = (trStart2Fail, Except.ok ())) ∨
    (d.openDevice = 1 ∧ d.initCan can1 = 1 ∧ d.initCan can2 = 1 ∧ d.startCan can1 = 1 ∧
      d.startCan can2 = 1 ∧ mainRun d = (trFull d.closeDevice, Except.ok ())) := by
  by_cases ho : d.openDevice = 1
  · by_cases h0 : d.initCan can1 = 1
    · by_cases h1 : d.initCan can2 = 1
      · by_cases hs0 : d.startCan can1 = 1
        · by_cases hs1 : d.startCan can2 = 1
          · exact Or.inr (Or.inr (Or.inr (Or.inr (Or.inr
              ⟨ho, h0, h1, hs0, hs1, by simp [mainRun, ho, h0, h1, hs0, hs1, trFull]⟩))))
          · exact Or.inr (Or.inr (Or.inr (Or.inr (Or.inl
              ⟨ho, h0, h1, hs0, hs1, by simp [mainRun, ho, h0, h1, hs0, hs1, trStart2Fail]⟩))))
        · exact Or.inr (Or.inr (Or.inr (Or.inl
            ⟨ho, h0, h1, hs0, by simp [mainRun, ho, h0, h1, hs0, trStart1Fail]⟩)))
      · exact Or.inr (Or.inr (Or.inl
          ⟨ho, h0, h1, by simp [mainRun, ho, h0, h1, trInit2Fail]⟩))
    · exact Or.inr (Or.inl ⟨ho, h0, by simp [mainRun, ho, h0, trInit1Fail]⟩)
  · exact Or.inl ⟨ho, by simp [mainRun, ho, trOpenFail]⟩

/-- Claim C1, counterexample: with a driver whose open succeeds and whose
VCI_InitCAN on channel 0 fails, the setup aborts but the program makes no
close call at all before returning, refuting the claim that a driver
close call is still attempted. -/
theorem canalyst_c1_counterexample :
    dInitFail.openDevice = 1 ∧ dInitFail.initCan can1 ≠ 1 ∧
    (mainRun dInitFail).1.countP isCloseCallEv = 0 ∧
    (mainRun dInitFail).1.countP isRunActivities = 0 ∧
    (mainRun dInitFail).2 = Except.ok () :=
  ⟨rfl, by decide, by decide, by decide, rfl⟩

/-- Claim C1 (amended): if the driver open call succeeds but a later
setup step (VCI_InitCAN on channel 0 or 1, or VCI_StartCAN on channel 0
or 1) returns a non-success status, the program aborts the remaining
setup steps, spawns none of the three activities, makes no driver close
call, and returns normally. -/
theorem canalyst_c1_amended (d : Driver) (hopen : d.openDevice = 1)
    (hfail : ¬(d.initCan can1 = 1 ∧ d.initCan can2 = 1 ∧
               d.startCan can1 = 1 ∧ d.startCan can2 = 1)) :
    (mainRun d).1.countP isRunActivities = 0 ∧
    (mainRun d).1.countP isCloseCallEv = 0 ∧
    (mainRun d).2 = Except.ok () := by
  rcases mainRun_cases d with h | h | h | h | h | h
  · exact absurd hopen h.1
  · rw [h.2.2]; exact ⟨by decide, by decide, rfl⟩
  · rw [h.2.2.2]; exact ⟨by decide, by decide, rfl⟩
  · rw [h.2.2.2.2]; exact ⟨by decide, by decide, rfl⟩
  · rw [h.2.2.2.2.2]; exact ⟨by decide, by decide, rfl⟩
  · exact absurd ⟨h.2.1, h.2.2.1, h.2.2.2.1, h.2.2.2.2.1⟩ hfail

/-- Claim C1 amended, witness at the concrete driver dInitFail. -/
theorem canalyst_c1_amended_witness :
    (mainRun dInitFail).1.countP isRunActivities = 0 ∧
    (mainRun dInitFail).1.countP isCloseCallEv = 0 ∧
    (mainRun dInitFail).2 = Except.ok () :=
  canalyst_c1_amended dInitFail rfl (by decide)

/-- Claim C4, counterexample: with a failing close status the printed
lines of the run are identical to those of the run whose close succeeds;
no status line distinguishes the failure, refuting the reporting part of
the claim. -/
theorem canalyst_c4_counterexample :
    dCloseFail.closeDevice ≠ 1 ∧
    (mainRun dCloseFail).1.filter isLineEv = (mainRun dAllOk).1.filter isLineEv ∧
    MainEv.line "Device closed" ∈ (mainRun dCloseFail).1 ∧
    (mainRun dCloseFail).2 = Except.ok () :=
  ⟨by decide, by decide, by decide, rfl⟩

/-- Claim C4 (amended): when the driver close call returns a non-success
status at teardown, the status is discarded: no status line distinguishes
the failure from success (the same lines, ending in the closing line, are
printed either way), the failure is not escalated, and the program
returns normally. -/
theorem canalyst_c4_amended (d : Driver)
    (hopen : d.openDevice = 1) (h0 : d.initCan can1 = 1) (h1 : d.initCan can2 = 1)
    (hs0 : d.startCan can1 = 1) (hs1 : d.startCan can2 = 1) (_hclose : d.closeDevice ≠ 1) :
    (mainRun d).1.countP isCloseCallEv = 1 ∧
    MainEv.closeCall devType devIndex d.closeDevice ∈ (mainRun d).1 ∧
    MainEv.line "Device closed" ∈ (mainRun d).1 ∧
    (mainRun d).1.filter isLineEv = (mainRun (withClose d 1)).1.filter isLineEv ∧
    (mainRun d).2 = Except.ok () := by
  rcases mainRun_cases d with h | h | h | h | h | h
  · exact absurd hopen h.1
  · exact absurd h0 h.2.1
  · exact absurd h1 h.2.2.1
  · exact absurd hs0 h.2.2.2.1
  · exact absurd hs1 h.2.2.2.2.1
  · rcases mainRun_cases (withClose d 1) with h' | h' | h' | h' | h' | h'
    · exact absurd hopen h'.1
    · exact absurd h0 h'.2.1
    · exact absurd h1 h'.2.2.1
    · exact absurd hs0 h'.2.2.2.1
    · exact absurd hs1 h'.2.2.2.2.1
    · rw [h.2.2.2.2.2, h'.2.2.2.2.2]
      refine ⟨by simp [trFull, isCloseCallEv, List.countP_cons], by simp [trFull],
        by simp [trFull], by simp [trFull, withClose, isLineEv], rfl⟩

/-- Claim C4 amended, witness at the concrete driver dCloseFail. -/
theorem canalyst_c4_amended_witness :
    (mainRun dCloseFail).1.countP isCloseCallEv = 1 ∧
    MainEv.closeCall devType devIndex dCloseFail.closeDevice ∈ (mainRun dCloseFail).1 ∧
    MainEv.line "Device closed" ∈ (mainRun dCloseFail).1 ∧
    (mainRun dCloseFail).1.filter isLineEv = (mainRun (withClose dCloseFail 1)).1.filter isLineEv ∧
    (mainRun dCloseFail).2 = Except.ok () :=
  canalyst_c4_amended dCloseFail rfl rfl rfl rfl rfl (by decide)

/-- Claim C6: the setup calls of any run form a prefix of the sequence
init channel 0, init channel 1 (both with the identical configuration
value `config`), start channel 0, start channel 1 — so both channels are
initialized, with the same configuration, before any start call; if
VCI_InitCAN fails on channel 0 the only setup call is that one (channel
1 is not initialized and nothing is started), and if it fails on channel
1 the two init calls are the only setup calls (nothing is started). -/
theorem canalyst_c6_init_before_start (d : Driver) :
    (∃ n, (mainRun d).1.filter isSetupCall = setupCallSeq.take n) ∧
    (d.openDevice = 1 → d.initCan can1 ≠ 1 →
      (mainRun d).1.filter isSetupCall = [MainEv.initCall devType devIndex can1 config]) ∧
    (d.openDevice = 1 → d.initCan can1 = 1 → d.initCan can2 ≠ 1 →
      (mainRun d).1.filter isSetupCall =
        [MainEv.initCall devType devIndex can1 config,
         MainEv.initCall devType devIndex can2 config]) ∧
    (∀ dt di ch, MainEv.startCall dt di ch ∈ (mainRun d).1 →
      MainEv.initCall devType devIndex can1 config ∈ (mainRun d).1 ∧
      MainEv.initCall devType devIndex can2 config ∈ (mainRun d).1) := by
  rcases mainRun_cases d with h | h | h | h | h | h
  · rw [h.2]
    exact ⟨⟨0, by decide⟩, fun ho => absurd ho h.1, fun ho => absurd ho h.1,
      by intro dt di ch hmem; simp [trOpenFail] at hmem⟩
  · rw [h.2.2]
    exact ⟨⟨1, by decide⟩, fun _ _ => by decide, fun _ h0 => absurd h0 h.2.1,
      by intro dt di ch hmem; simp [trInit1Fail] at hmem⟩
  · rw [h.2.2.2]
    exact ⟨⟨2, by decide⟩, fun _ h0 => absurd h.2.1 h0, fun _ _ _ => by decide,
      by intro dt di ch hmem; simp [trInit2Fail] at hmem⟩
  · rw [h.2.2.2.2]
    exact ⟨⟨3, by decide⟩, fun _ h0 => absurd h.2.1 h0,
      fun _ _ h1 => absurd h.2.2.1 h1,
      by intro dt di ch _; exact ⟨by decide, by decide⟩⟩
  · rw [h.2.2.2.2.2]
    exact ⟨⟨4, by decide⟩, fun _ h0 => absurd h.2.1 h0,
      fun _ _ h1 => absurd h.2.2.1 h1,
      by intro dt di ch _; exact ⟨by decide, by decide⟩⟩
  · rw [h.2.2.2.2.2]
    refine ⟨⟨4, by simp [trFull, isSetupCall, setupCallSeq]⟩,
      fun _ h0 => absurd h.2.1 h0, fun _ _ h1 => absurd h.2.2.1 h1, ?_⟩
    intro dt di ch _
    exact ⟨by simp [trFull], by simp [trFull]⟩

/-- Claim C6, witness at the concrete driver dInitFail: the failing init
on channel 0 leaves exactly one setup call. -/
theorem canalyst_c6_witness :
    (mainRun dInitFail).1.filter isSetupCall = [MainEv.initCall devType devIndex can1 config] :=
  (canalyst_c6_init_before_start dInitFail).2.1 rfl (by decide)

theorem txCallFrames_txIter (d : Driver) (v : Nat) :
    txCallFrames (txIter d v) = [txFrame v] := by
  by_cases h : d.transmit v > 0 <;>
    simp [txIter, txCallFrames, txCallFrame, h]

theorem txCallFrames_flatMap (d : Driver) (vs : List Nat) :
    txCallFrames (vs.flatMap (txIter d)) = vs.map txFrame := by
  induction vs with
  | nil => rfl
  | cons v vs ih =>
    rw [List.flatMap_cons]
    show (txIter d v ++ vs.flatMap (txIter d)).filterMap txCallFrame = _
    rw [List.filterMap_append]
    show txCallFrames (txIter d v) ++ txCallFrames (vs.flatMap (txIter d)) = _
    rw [txCallFrames_txIter, ih, List.map_cons]
    rfl

theorem countP_isTxCall_txIter (d : Driver) (v : Nat) :
    (txIter d v).countP isTxCall = 1 := by
  by_cases h : d.transmit v > 0 <;> simp [txIter, isTxCall, h, List.countP_cons]

theorem countP_isTxCall_flatMap (d : Driver) (vs : List Nat) :
    (vs.flatMap (txIter d)).countP isTxCall = vs.length := by
  induction vs with
  | nil => rfl
  | cons v vs ih =>
    rw [List.flatMap_cons, List.countP_append, countP_isTxCall_txIter, ih, List.length_cons]
    omega

theorem mem_txIter_transmitCall (d : Driver) (v dt di ch : Nat) (f : VciCanObj) (n : Nat)
    (h : TxEv.transmitCall dt di ch f n ∈ txIter d v) :
    dt = devType ∧ di = devIndex ∧ ch = can1 ∧ f = txFrame v ∧ n = 1 := by
  by_cases hc : d.transmit v > 0 <;> simp [txIter, hc] at h <;> tauto

theorem sentLine_mem_txIter (d : Driver) (v w : Nat) :
    TxEv.sentLine w ∈ txIter d v ↔ (w = v ∧ d.transmit v > 0) := by
  by_cases h : d.transmit v > 0 <;> simp [txIter, h]

/-- Claim C2: the transmitter makes exactly 255 transmit calls, on
channel 0, each for exactly one frame; the frames passed are exactly
txFrame 1, ..., txFrame 255 in that order (id 0x1, dataLen 1, first
payload byte the value), so the payload bytes are strictly increasing
1..255; every transmitted frame is one of these; and the transmitter
never reads the shared flag — its scheduler step is unchanged by any
value of the flag, and in every interleaved execution in which the
transmit thread has finished, the transmitted payloads are exactly
1..255 whatever the flag did. -/
theorem canalyst_c2_transmitter (d : Driver) :
    txCallFrames (transmitThread d) = (List.range' 1 255).map txFrame ∧
    (transmitThread d).countP isTxCall = 255 ∧
    ((txCallFrames (transmitThread d)).map payloadByte).Pairwise (· < ·) ∧
    (∀ dt di ch f n, TxEv.transmitCall dt di ch f n ∈ transmitThread d →
      dt = devType ∧ di = devIndex ∧ ch = can1 ∧ n = 1 ∧
      f.id = 1 ∧ f.dataLen = 1 ∧ ∃ v, v ∈ List.range' 1 255 ∧ f = txFrame v) ∧
    (∀ v, v ∈ List.range' 1 255 →
      TxEv.transmitCall devType devIndex can1 (txFrame v) 1 ∈ transmitThread d) ∧
    (∀ s b, txObs (txStepF d (setRunning s b)) = txObs (txStepF d s)) := by
  refine ⟨txCallFrames_flatMap d _, ?_, ?_, ?_, ?_, ?_⟩
  · rw [transmitThread, countP_isTxCall_flatMap, List.length_range']
  · rw [transmitThread, txCallFrames_flatMap]
    have : ((List.range' 1 255).map txFrame).map payloadByte = List.range' 1 255 := by
      rw [List.map_map]
      have : payloadByte ∘ txFrame = id := by
        funext v; rfl
      rw [this, List.map_id]
    rw [this]
    exact List.pairwise_lt_range' 1 255
  · intro dt di ch f n hmem
    rw [transmitThread, List.mem_flatMap] at hmem
    obtain ⟨v, hv, hin⟩ := hmem
    obtain ⟨h1, h2, h3, h4, h5⟩ := mem_txIter_transmitCall d v dt di ch f n hin
    exact ⟨h1, h2, h3, h5, by rw [h4]; rfl, by rw [h4]; rfl, v, hv, h4⟩
  · intro v hv
    rw [transmitThread, List.mem_flatMap]
    refine ⟨v, hv, ?_⟩
    by_cases hc : d.transmit v > 0 <;> simp [txIter, hc]
  · intro s b
    by_cases h1 : s.txDone <;> by_cases h2 : s.txIdx ≤ 255 <;>
      simp [txStepF, setRunning, txObs, h1, h2]

/-- Claim C2, witness: with the all-success driver, value 7 is
transmitted as a one-frame call on channel 0. -/
theorem canalyst_c2_witness :
    TxEv.transmitCall devType devIndex can1 (txFrame 7) 1 ∈ transmitThread dAllOk :=
  (canalyst_c2_transmitter dAllOk).2.2.2.2.1 7 (by decide)

set_option maxRecDepth 8192 in
/-- Claim C9, counterexample: with a driver whose every transmit fails,
the transmit call for value 1 is made and fails, yet no status line at
all is printed — refuting the claim that the outcome is reported in the
failure case as well — while all 255 calls are still made. -/
theorem canalyst_c9_counterexample :
    dTxFail.transmit 1 ≤ 0 ∧
    TxEv.transmitCall devType devIndex can1 (txFrame 1) 1 ∈ transmitThread dTxFail ∧
    (transmitThread dTxFail).countP isSentLine = 0 ∧
    (transmitThread dTxFail).countP isTxCall = 255 := by
  refine ⟨by decide, ?_, by decide, by decide⟩
  rw [transmitThread, List.mem_flatMap]
  exact ⟨1, by decide, by simp [txIter, dTxFail]⟩

/-- Claim C9 (amended): each successful transmit call is reported with a
status line, a failed call produces no line, and a failed call does not
stop the loop: all 255 calls are made regardless of per-call results. -/
theorem canalyst_c9_amended (d : Driver) :
    (transmitThread d).countP isTxCall = 255 ∧
    txCallFrames (transmitThread d) = (List.range' 1 255).map txFrame ∧
    (∀ v, TxEv.sentLine v ∈ transmitThread d ↔ (v ∈ List.range' 1 255 ∧ d.transmit v > 0)) := by
  refine ⟨?_, txCallFrames_flatMap d _, ?_⟩
  · rw [transmitThread, countP_isTxCall_flatMap, List.length_range']
  · intro v
    rw [transmitThread, List.mem_flatMap]
    constructor
    · rintro ⟨w, hw, hin⟩
      obtain ⟨rfl, hpos⟩ := (sentLine_mem_txIter d w v).1 hin
      exact ⟨hw, hpos⟩
    · rintro ⟨hv, hpos⟩
      exact ⟨v, hv, (sentLine_mem_txIter d v v).2 ⟨rfl, hpos⟩⟩

/-- Claim C9 amended, witness: with the all-success driver value 3 is
reported; with the all-fail driver all 255 calls are still made. -/
theorem canalyst_c9_amended_witness :
    TxEv.sentLine 3 ∈ transmitThread dAllOk ∧
    (transmitThread dTxFail).countP isTxCall = 255 :=
  ⟨((canalyst_c9_amended dAllOk).2.2 3).2 ⟨by decide, by decide⟩,
   (canalyst_c9_amended dTxFail).1⟩

/-- Claim C7: a receiver iteration taken while the cancellation flag is
not set makes exactly one timeout-bounded (500 ms) receive call for at
most 1 frame on channel 0; if the call returned one or more frames the
frame id is reported together with the slice of exactly the first
dataLen payload bytes (no byte past dataLen is read), then the 5 ms
pacing sleep follows and the loop stays live so the flag is re-checked;
if the call returned zero or fewer frames nothing is reported and the
loop continues. -/
theorem canalyst_c7_receiver (d : Driver) (s : Sys)
    (hnd : s.rxDone = false) (hnp : s.rxPanicFlag = false) (hrun : s.running = true)
    (hdl : ((d.receive s.rxCount).2).dataLen ≤ ((d.receive s.rxCount).2).data.length) :
    (0 < (d.receive s.rxCount).1 →
      rxStepF d s = some ({ s with rxCount := s.rxCount + 1 },
        [Label.receiveCall devType devIndex can1 1 500,
         Label.reportLine ((d.receive s.rxCount).2).id
           (((d.receive s.rxCount).2).data.take ((d.receive s.rxCount).2).dataLen),
         Label.sleepMs 5])) ∧
    ((d.receive s.rxCount).1 ≤ 0 →
      rxStepF d s = some ({ s with rxCount := s.rxCount + 1 },
        [Label.receiveCall devType devIndex can1 1 500, Label.sleepMs 5])) ∧
    ((((d.receive s.rxCount).2).data.take ((d.receive s.rxCount).2).dataLen).length
      = ((d.receive s.rxCount).2).dataLen) := by
  have hslice : payloadSlice (d.receive s.rxCount).2 =
      some (((d.receive s.rxCount).2).data.take ((d.receive s.rxCount).2).dataLen) := by
    rw [payloadSlice, if_pos hdl]
  refine ⟨?_, ?_, ?_⟩
  · intro hpos
    rw [rxStepF]
    simp only [hnd, hnp, hrun, Bool.false_eq_true, or_self, if_false, if_true]
    rw [if_pos hpos, hslice]
  · intro hneg
    rw [rxStepF]
    simp only [hnd, hnp, hrun, Bool.false_eq_true, or_self, if_false, if_true]
    rw [if_neg (by omega)]
  · rw [List.length_take]
    omega

/-- Claim C7, witness: at the spec's end-to-end scenario driver (first
receive returns one frame id 0x1, dataLen 1, payload byte 7), the first
receiver iteration reports id 1 with payload [7]. -/
theorem canalyst_c7_witness :
    rxStepF dRecv7 initSys = some ({ initSys with rxCount := 1 },
      [Label.receiveCall devType devIndex can1 1 500, Label.reportLine 1 [7], Label.sleepMs 5]) :=
  ((canalyst_c7_receiver dRecv7 initSys rfl rfl rfl (by decide)).1 (by decide)).trans (by decide)

/-- Claim C10: the receiver's payload slice is taken with no bounds
guard; for a frame whose 8-byte data array satisfies dataLen ≤ 8 the
slice is defined and has exactly dataLen bytes, the slice is undefined
(the panic value none) exactly when dataLen > 8, a driver-returned frame
with dataLen > 8 drives the receiver step into its panicked state, and
conversely a receiver step only panics when the driver-written dataLen
exceeds the data array length. -/
theorem canalyst_c10_slice (obj : VciCanObj) (hlen : obj.data.length = 8) :
    (obj.dataLen ≤ 8 →
      payloadSlice obj = some (obj.data.take obj.dataLen) ∧
      (obj.data.take obj.dataLen).length = obj.dataLen) ∧
    (payloadSlice obj = none ↔ 8 < obj.dataLen) ∧
    (∀ d s, s.rxDone = false → s.rxPanicFlag = false → s.running = true →
      0 < (d.receive s.rxCount).1 → (d.receive s.rxCount).2 = obj → 8 < obj.dataLen →
      rxStepF d s = some ({ s with rxPanicFlag := true },
        [Label.receiveCall devType devIndex can1 1 500, Label.rxOutOfBounds])) ∧
    (∀ d s s' ls, s.rxPanicFlag = false → rxStepF d s = some (s', ls) →
      s'.rxPanicFlag = true →
      ((d.receive s.rxCount).2).data.length < ((d.receive s.rxCount).2).dataLen) := by
  refine ⟨?_, ?_, ?_, ?_⟩
  · intro h
    have hdl : obj.dataLen ≤ obj.data.length := by omega
    refine ⟨by rw [payloadSlice, if_pos hdl], ?_⟩
    rw [List.length_take]
    omega
  · by_cases hc : obj.dataLen ≤ obj.data.length <;> simp [payloadSlice, hc] <;> omega
  · intro d s hnd hnp hrun hpos hobj hbig
    have hslice : payloadSlice (d.receive s.rxCount).2 = none := by
      rw [hobj, payloadSlice, if_neg (by omega)]
    rw [rxStepF]
    simp only [hnd, hnp, hrun, Bool.false_eq_true, or_self, if_false, if_true]
    rw [if_pos hpos, hslice]
  · intro d s s' ls hnp h hpanic
    rw [rxStepF] at h
    by_cases hd : s.rxDone ∨ s.rxPanicFlag
    · rw [if_pos hd] at h
      exact absurd h (by simp)
    · rw [if_neg hd] at h
      by_cases hr : s.running = true
      · rw [if_pos hr] at h
        simp only at h
        by_cases hp : 0 < (d.receive s.rxCount).1
        · rw [if_pos hp] at h
          by_cases hs : ((d.receive s.rxCount).2).dataLen ≤ ((d.receive s.rxCount).2).data.length
          · rw [show payloadSlice (d.receive s.rxCount).2 =
                some (((d.receive s.rxCount).2).data.take ((d.receive s.rxCount).2).dataLen) from
                by rw [payloadSlice, if_pos hs]] at h
            simp only [Option.some.injEq, Prod.mk.injEq] at h
            obtain ⟨h1, _⟩ := h
            rw [← h1] at hpanic
            simp [hnp] at hpanic
          · omega
        · rw [if_neg hp] at h
          simp only [Option.some.injEq, Prod.mk.injEq] at h
          obtain ⟨h1, _⟩ := h
          rw [← h1] at hpanic
          simp [hnp] at hpanic
      · rw [if_neg hr] at h
        simp only [Option.some.injEq, Prod.mk.injEq] at h
        obtain ⟨h1, _⟩ := h
        rw [← h1] at hpanic
        simp [hnp] at hpanic

/-- Claim C10, witness: the malformed frame objBad (dataLen 9) has no
slice, and the receiver step at a driver returning it panics. -/
theorem canalyst_c10_witness :
    payloadSlice objBad = none ∧
    rxStepF dRecvBad initSys = some ({ initSys with rxPanicFlag := true },
      [Label.receiveCall devType devIndex can1 1 500, Label.rxOutOfBounds]) :=
  ⟨(canalyst_c10_slice objBad rfl).2.1.mpr (by decide),
   (canalyst_c10_slice objBad rfl).2.2.1 dRecvBad initSys rfl rfl rfl (by decide) rfl (by decide)⟩

/-- Claim C8: the cancellation watcher, while live and seeing the flag
not yet set, makes one 100 ms-bounded poll per iteration; a key event
with code Char x and the CONTROL modifier makes it print the detection
line, store false into the shared flag and terminate; any other poll
outcome (timeout, non-key event, non-matching key) leaves the flag
untouched and continues; and when it observes the flag already cleared
by another path it terminates without polling. -/
theorem canalyst_c8_watcher (ko : KbOracle) (s : Sys) (hnd : s.kbDone = false) :
    (∀ c m, s.running = true → ko s.kbCount = InputEv.key c m →
      c = KeyCode.char 'x' → m.ctrl = true →
      kbStepF ko s = some ({ s with running := false, kbDone := true, kbCount := s.kbCount + 1 },
        [Label.pollCall 100, Label.cancelLine, Label.storeFlag false])) ∧
    (s.running = true → ko s.kbCount = InputEv.timeout →
      kbStepF ko s = some ({ s with kbCount := s.kbCount + 1 }, [Label.pollCall 100])) ∧
    (s.running = true → ko s.kbCount = InputEv.nonKey →
      kbStepF ko s = some ({ s with kbCount := s.kbCount + 1 }, [Label.pollCall 100])) ∧
    (∀ c m, s.running = true → ko s.kbCount = InputEv.key c m →
      ¬(c = KeyCode.char 'x' ∧ m.ctrl = true) →
      kbStepF ko s = some ({ s with kbCount := s.kbCount + 1 }, [Label.pollCall 100])) ∧
    (s.running = false → kbStepF ko s = some ({ s with kbDone := true }, [])) := by
  refine ⟨?_, ?_, ?_, ?_, ?_⟩
  · intro c m hrun hko hc hm
    rw [kbStepF]
    simp only [hnd, Bool.false_eq_true, if_false, hrun, if_true, hko]
    rw [if_pos ⟨hc, hm⟩]
  · intro hrun hko
    rw [kbStepF]
    simp only [hnd, Bool.false_eq_true, if_false, hrun, if_true, hko]
  · intro hrun hko
    rw [kbStepF]
    simp only [hnd, Bool.false_eq_true, if_false, hrun, if_true, hko]
  · intro c m hrun hko hne
    rw [kbStepF]
    simp only [hnd, Bool.false_eq_true, if_false, hrun, if_true, hko]
    rw [if_neg hne]
  · intro hrun
    rw [kbStepF]
    simp only [hnd, Bool.false_eq_true, if_false, hrun]

/-- Claim C8, witness: at the oracle that presses Ctrl+X immediately,
the watcher's first step cancels and terminates. -/
theorem canalyst_c8_witness :
    kbStepF koCtrlX initSys = some ({ initSys with running := false, kbDone := true, kbCount := 1 },
      [Label.pollCall 100, Label.cancelLine, Label.storeFlag false]) :=
  (canalyst_c8_watcher koCtrlX initSys rfl).1 (KeyCode.char 'x') ⟨true, false, false⟩ rfl rfl rfl rfl

theorem range'_one_concat (i : Nat) (h : 1 ≤ i) :
    List.range' 1 (i - 1) ++ [i] = List.range' 1 i := by
  have h2 : i - 1 + 1 = i := by omega
  have h3 : 1 + (i - 1) = i := by omega
  calc List.range' 1 (i - 1) ++ [i]
      = List.range' 1 (i - 1) ++ [1 + (i - 1)] := by rw [h3]
    _ = List.range' 1 (i - 1 + 1) := (List.range'_1_concat 1 (i - 1)).symm
    _ = List.range' 1 i := by rw [h2]

theorem txStep_inv (d : Driver) {s s' : Sys} {ls : List Label}
    (h : txStepF d s = some (s', ls)) {L : List Label} (hinv : TraceInv L s) :
    TraceInv (L ++ ls) s' := by
  obtain ⟨⟨hi1, hi2, hi3⟩, ⟨hp1, hp2, hp3, hp4, hp5⟩, hmap, hcnt, hjoin⟩ := hinv
  rw [txStepF] at h
  split at h
  · exact Option.noConfusion h
  next hdone =>
    split at h
    next hle =>
      simp only [Option.some.injEq, Prod.mk.injEq] at h
      obtain ⟨hs', hls⟩ := h
      subst hs'
      subst hls
      refine ⟨⟨by show 1 ≤ s.txIdx + 1; omega, by show s.txIdx + 1 ≤ 256; omega,
        fun hd => absurd hd hdone⟩, ⟨hp1, hp2, hp3, hp4, hp5⟩, ?_, ?_, ?_⟩
      · show (L ++ _).filterMap txPayload = List.range' 1 (s.txIdx + 1 - 1)
        rw [List.filterMap_append, hmap, Nat.add_sub_cancel,
          ← range'_one_concat s.txIdx hi1]
        congr 1
        by_cases hc : d.transmit s.txIdx > 0 <;> simp [txPayload, txFrame, hc]
      · show (L ++ _).countP isClose = closeCountOf s.pc
        rw [List.countP_append, hcnt]
        by_cases hc : d.transmit s.txIdx > 0 <;> simp [isClose, hc]
      · show (L ++ _).filter isJoin = joinsOf s.pc
        rw [List.filter_append, hjoin]
        by_cases hc : d.transmit s.txIdx > 0 <;> simp [isJoin, hc]
    next hgt =>
      simp only [Option.some.injEq, Prod.mk.injEq] at h
      obtain ⟨hs', hls⟩ := h
      subst hs'
      subst hls
      refine ⟨⟨hi1, hi2, fun _ => by show s.txIdx = 256; omega⟩,
        ⟨fun _ => rfl, fun hq => ⟨rfl, (hp2 hq).2⟩,
         fun hq => ⟨rfl, (hp3 hq).2.1, (hp3 hq).2.2⟩,
         fun hq => ⟨rfl, (hp4 hq).2.1, (hp4 hq).2.2⟩,
         fun hq => ⟨rfl, (hp5 hq).2⟩⟩, by simpa using hmap, by simpa using hcnt,
        by simpa using hjoin⟩

theorem rxStep_inv (d : Driver) {s s' : Sys} {ls : List Label}
    (h : rxStepF d s = some (s', ls)) {L : List Label} (hinv : TraceInv L s) :
    TraceInv (L ++ ls) s' := by
  obtain ⟨⟨hi1, hi2, hi3⟩, ⟨hp1, hp2, hp3, hp4, hp5⟩, hmap, hcnt, hjoin⟩ := hinv
  rw [rxStepF] at h
  split at h
  · exact Option.noConfusion h
  next hlive =>
    split at h
    next hrun =>
      simp only at h
      split at h
      next hpos =>
        split at h
        next p hsl =>
          simp only [Option.some.injEq, Prod.mk.injEq] at h
          obtain ⟨hs', hls⟩ := h
          subst hs'
          subst hls
          exact ⟨⟨hi1, hi2, hi3⟩, ⟨hp1, hp2, hp3, hp4, hp5⟩,
            by simpa [txPayload] using hmap, by simpa [isClose] using hcnt,
            by simpa [isJoin] using hjoin⟩
        next hsl =>
          simp only [Option.some.injEq, Prod.mk.injEq] at h
          obtain ⟨hs', hls⟩ := h
          subst hs'
          subst hls
          refine ⟨⟨hi1, hi2, hi3⟩, ⟨hp1, hp2, hp3, hp4, fun hq => ⟨(hp5 hq).1, rfl⟩⟩,
            by simpa [txPayload] using hmap, by simpa [isClose] using hcnt,
            by simpa [isJoin] using hjoin⟩
      next hpos =>
        simp only [Option.some.injEq, Prod.mk.injEq] at h
        obtain ⟨hs', hls⟩ := h
        subst hs'
        subst hls
        exact ⟨⟨hi1, hi2, hi3⟩, ⟨hp1, hp2, hp3, hp4, hp5⟩,
          by simpa [txPayload] using hmap, by simpa [isClose] using hcnt,
          by simpa [isJoin] using hjoin⟩
    next hrun =>
      simp only [Option.some.injEq, Prod.mk.injEq] at h
      obtain ⟨hs', hls⟩ := h
      subst hs'
      subst hls
      refine ⟨⟨hi1, hi2, hi3⟩,
        ⟨hp1, fun hq => ⟨(hp2 hq).1, rfl⟩,
         fun hq => ⟨(hp3 hq).1, rfl, (hp3 hq).2.2⟩,
         fun hq => ⟨(hp4 hq).1, rfl, (hp4 hq).2.2⟩, hp5⟩,
        by simpa using hmap, by simpa using hcnt, by simpa using hjoin⟩

theorem kbStep_inv (ko : KbOracle) {s s' : Sys} {ls : List Label}
    (h : kbStepF ko s = some (s', ls)) {L : List Label} (hinv : TraceInv L s) :
    TraceInv (L ++ ls) s' := by
  obtain ⟨⟨hi1, hi2, hi3⟩, ⟨hp1, hp2, hp3, hp4, hp5⟩, hmap, hcnt, hjoin⟩ := hinv
  rw [kbStepF] at h
  split at h
  · exact Option.noConfusion h
  next hlive =>
    split at h
    next hrun =>
      split at h
      · simp only [Option.some.injEq, Prod.mk.injEq] at h
        obtain ⟨hs', hls⟩ := h
        subst hs'
        subst hls
        exact ⟨⟨hi1, hi2, hi3⟩, ⟨hp1, hp2, hp3, hp4, hp5⟩,
          by simpa [txPayload] using hmap, by simpa [isClose] using hcnt,
          by simpa [isJoin] using hjoin⟩
      · simp only [Option.some.injEq, Prod.mk.injEq] at h
        obtain ⟨hs', hls⟩ := h
        subst hs'
        subst hls
        exact ⟨⟨hi1, hi2, hi3⟩, ⟨hp1, hp2, hp3, hp4, hp5⟩,
          by simpa [txPayload] using hmap, by simpa [isClose] using hcnt,
          by simpa [isJoin] using hjoin⟩
      next code mods =>
        split at h
        next hkey =>
          simp only [Option.some.injEq, Prod.mk.injEq] at h
          obtain ⟨hs', hls⟩ := h
          subst hs'
          subst hls
          refine ⟨⟨hi1, hi2, hi3⟩,
            ⟨hp1, hp2, fun hq => ⟨(hp3 hq).1, (hp3 hq).2.1, rfl⟩,
             fun hq => ⟨(hp4 hq).1, (hp4 hq).2.1, rfl⟩, hp5⟩,
            by simpa [txPayload] using hmap, by simpa [isClose] using hcnt,
            by simpa [isJoin] using hjoin⟩
        next hkey =>
          simp only [Option.some.injEq, Prod.mk.injEq] at h
          obtain ⟨hs', hls⟩ := h
          subst hs'
          subst hls
          exact ⟨⟨hi1, hi2, hi3⟩, ⟨hp1, hp2, hp3, hp4, hp5⟩,
            by simpa [txPayload] using hmap, by simpa [isClose] using hcnt,
            by simpa [isJoin] using hjoin⟩
    next hrun =>
      simp only [Option.some.injEq, Prod.mk.injEq] at h
      obtain ⟨hs', hls⟩ := h
      subst hs'
      subst hls
      refine ⟨⟨hi1, hi2, hi3⟩,
        ⟨hp1, hp2, fun hq => ⟨(hp3 hq).1, (hp3 hq).2.1, rfl⟩,
         fun hq => ⟨(hp4 hq).1, (hp4 hq).2.1, rfl⟩, hp5⟩,
        by simpa using hmap, by simpa using hcnt, by simpa using hjoin⟩

theorem mainStep_inv (d : Driver) {s s' : Sys} {ls : List Label}
    (h : mainStepF d s = some (s', ls)) {L : List Label} (hinv : TraceInv L s) :
    TraceInv (L ++ ls) s' := by
  obtain ⟨⟨hi1, hi2, hi3⟩, ⟨hp1, hp2, hp3, hp4, hp5⟩, hmap, hcnt, hjoin⟩ := hinv
  rw [mainStepF] at h
  split at h
  next hpc =>
    split at h
    next htx =>
      simp only [Option.some.injEq, Prod.mk.injEq] at h
      obtain ⟨hs', hls⟩ := h
      subst hs'
      subst hls
      refine ⟨⟨hi1, hi2, hi3⟩,
        ⟨fun _ => htx, fun hq => by simp at hq, fun hq => by simp at hq,
         fun hq => by simp at hq, fun hq => by simp at hq⟩,
        by simpa [txPayload] using hmap, ?_, ?_⟩
      · show (L ++ _).countP isClose = closeCountOf MainPC.joinRx
        rw [List.countP_append, hcnt, hpc]
        simp [isClose, closeCountOf]
      · show (L ++ _).filter isJoin = joinsOf MainPC.joinRx
        rw [List.filter_append, hjoin, hpc]
        simp [isJoin, joinsOf]
    next htx => exact Option.noConfusion h
  next hpc =>
    split at h
    next hrp =>
      simp only [Option.some.injEq, Prod.mk.injEq] at h
      obtain ⟨hs', hls⟩ := h
      subst hs'
      subst hls
      refine ⟨⟨hi1, hi2, hi3⟩,
        ⟨fun hq => by simp at hq, fun hq => by simp at hq, fun hq => by simp at hq,
         fun hq => by simp at hq, fun _ => ⟨hp1 hpc, hrp⟩⟩,
        by simpa [txPayload] using hmap, ?_, ?_⟩
      · show (L ++ _).countP isClose = closeCountOf MainPC.aborted
        rw [List.countP_append, hcnt, hpc]
        simp [isClose, closeCountOf]
      · show (L ++ _).filter isJoin = joinsOf MainPC.aborted
        rw [List.filter_append, hjoin, hpc]
        simp [isJoin, joinsOf]
    next hrp =>
      split at h
      next hrx =>
        simp only [Option.some.injEq, Prod.mk.injEq] at h
        obtain ⟨hs', hls⟩ := h
        subst hs'
        subst hls
        refine ⟨⟨hi1, hi2, hi3⟩,
          ⟨fun hq => by simp at hq, fun _ => ⟨hp1 hpc, hrx⟩, fun hq => by simp at hq,
           fun hq => by simp at hq, fun hq => by simp at hq⟩,
          by simpa [txPayload] using hmap, ?_, ?_⟩
        · show (L ++ _).countP isClose = closeCountOf MainPC.joinKb
          rw [List.countP_append, hcnt, hpc]
          simp [isClose, closeCountOf]
        · show (L ++ _).filter isJoin = joinsOf MainPC.joinKb
          rw [List.filter_append, hjoin, hpc]
          simp [isJoin, joinsOf]
      · exact Option.noConfusion h
  next hpc =>
    split at h
    next hkb =>
      simp only [Option.some.injEq, Prod.mk.injEq] at h
      obtain ⟨hs', hls⟩ := h
      subst hs'
      subst hls
      refine ⟨⟨hi1, hi2, hi3⟩,
        ⟨fun hq => by simp at hq, fun hq => by simp at hq,
         fun _ => ⟨(hp2 hpc).1, (hp2 hpc).2, hkb⟩, fun hq => by simp at hq,
         fun hq => by simp at hq⟩,
        by simpa [txPayload] using hmap, ?_, ?_⟩
      · show (L ++ _).countP isClose = closeCountOf MainPC.closing
        rw [List.countP_append, hcnt, hpc]
        simp [isClose, closeCountOf]
      · show (L ++ _).filter isJoin = joinsOf MainPC.closing
        rw [List.filter_append, hjoin, hpc]
        simp [isJoin, joinsOf]
    next hkb => exact Option.noConfusion h
  next hpc =>
    simp only [Option.some.injEq, Prod.mk.injEq] at h
    obtain ⟨hs', hls⟩ := h
    subst hs'
    subst hls
    refine ⟨⟨hi1, hi2, hi3⟩,
      ⟨fun hq => by simp at hq, fun hq => by simp at hq, fun hq => by simp at hq,
       fun _ => hp3 hpc, fun hq => by simp at hq⟩,
      by simpa [txPayload] using hmap, ?_, ?_⟩
    · show (L ++ _).countP isClose = closeCountOf MainPC.finished
      rw [List.countP_append, hcnt, hpc]
      simp [isClose, closeCountOf]
    · show (L ++ _).filter isJoin = joinsOf MainPC.finished
      rw [List.filter_append, hjoin, hpc]
      simp [isJoin, joinsOf]
  · exact Option.noConfusion h
  · exact Option.noConfusion h

theorem step_inv (d : Driver) (ko : KbOracle) {s s' : Sys} {ls : List Label}
    (hstep : Step d ko s ls s') {L : List Label} (hinv : TraceInv L s) :
    TraceInv (L ++ ls) s' := by
  cases hstep with
  | tx _ _ h => exact txStep_inv d h hinv
  | rx _ _ h => exact rxStep_inv d h hinv
  | kb _ _ h => exact kbStep_inv ko h hinv
  | mn _ _ h => exact mainStep_inv d h hinv

theorem traceInv_init : TraceInv [] initSys := by
  refine ⟨⟨by decide, by decide, by decide⟩,
    ⟨by decide, by decide, by decide, by decide, by decide⟩, rfl, rfl, rfl⟩

theorem trace_inv_mono (d : Driver) (ko : KbOracle) {s : Sys} {L : List Label} {s' : Sys}
    (h : Trace d ko s L s') :
    ∀ P, TraceInv P s → TraceInv (P ++ L) s' := by
  induction h with
  | nil s => intro P hP; simpa using hP
  | cons s ls s1 L1 s2 hstep htr ih =>
    intro P hP
    have h1 := step_inv d ko hstep hP
    have h2 := ih (P ++ ls) h1
    rwa [List.append_assoc] at h2

theorem trace_inv (d : Driver) (ko : KbOracle) {L : List Label} {s : Sys}
    (h : Trace d ko initSys L s) : TraceInv L s := by
  have := trace_inv_mono d ko h [] traceInv_init
  simpa using this

theorem threadStep_step (d : Driver) (ko : KbOracle) (t : Tid) (s s' : Sys) (ls : List Label)
    (h : threadStepF d ko t s = some (s', ls)) : Step d ko s ls s' := by
  cases t with
  | tx => exact Step.tx s s' ls h
  | rx => exact Step.rx s s' ls h
  | kb => exact Step.kb s s' ls h
  | mainT => exact Step.mn s s' ls h

theorem exec_trace (d : Driver) (ko : KbOracle) (ts : List Tid) (s : Sys) :
    Trace d ko s (exec d ko ts s).2 (exec d ko ts s).1 := by
  induction ts generalizing s with
  | nil => exact Trace.nil s
  | cons t ts ih =>
    cases hf : threadStepF d ko t s with
    | none =>
      have hx : exec d ko (t :: ts) s = exec d ko ts s := by
        rw [exec, hf]
      rw [hx]
      exact ih s
    | some p =>
      obtain ⟨s1, ls⟩ := p
      have h1 : (exec d ko (t :: ts) s).1 = (exec d ko ts s1).1 := by
        rw [exec, hf]
      have h2 : (exec d ko (t :: ts) s).2 = ls ++ (exec d ko ts s1).2 := by
        rw [exec, hf]
      rw [h1, h2]
      exact Trace.cons s ls s1 _ _ (threadStep_step d ko t s s1 ls hf) (ih s1)

theorem step_close_pc (d : Driver) (ko : KbOracle) {s s' : Sys} {ls : List Label}
    (hstep : Step d ko s ls s') (dt di : Nat) (st : Int)
    (hmem : Label.closeCall dt di st ∈ ls) : s.pc = MainPC.closing := by
  cases hstep with
  | tx _ _ h =>
    rw [txStepF] at h
    split at h
    · exact Option.noConfusion h
    · split at h <;>
        (simp only [Option.some.injEq, Prod.mk.injEq] at h
         obtain ⟨_, hls⟩ := h
         subst hls) <;>
        (by_cases hc : d.transmit s.txIdx > 0 <;> simp [hc] at hmem)
  | rx _ _ h =>
    rw [rxStepF] at h
    split at h
    · exact Option.noConfusion h
    · split at h
      · simp only at h
        split at h
        · split at h <;>
            (simp only [Option.some.injEq, Prod.mk.injEq] at h
             obtain ⟨_, hls⟩ := h
             subst hls
             simp at hmem)
        · simp only [Option.some.injEq, Prod.mk.injEq] at h
          obtain ⟨_, hls⟩ := h
          subst hls
          simp at hmem
      · simp only [Option.some.injEq, Prod.mk.injEq] at h
        obtain ⟨_, hls⟩ := h
        subst hls
        simp at hmem
  | kb _ _ h =>
    rw [kbStepF] at h
    split at h
    · exact Option.noConfusion h
    · split at h
      · split at h
        · simp only [Option.some.injEq, Prod.mk.injEq] at h
          obtain ⟨_, hls⟩ := h
          subst hls
          simp at hmem
        · simp only [Option.some.injEq, Prod.mk.injEq] at h
          obtain ⟨_, hls⟩ := h
          subst hls
          simp at hmem
        · split at h <;>
            (simp only [Option.some.injEq, Prod.mk.injEq] at h
             obtain ⟨_, hls⟩ := h
             subst hls
             simp at hmem)
      · simp only [Option.some.injEq, Prod.mk.injEq] at h
        obtain ⟨_, hls⟩ := h
        subst hls
        simp at hmem
  | mn _ _ h =>
    rw [mainStepF] at h
    split at h
    next hpc =>
      split at h
      · simp only [Option.some.injEq, Prod.mk.injEq] at h
        obtain ⟨_, hls⟩ := h
        subst hls
        simp at hmem
      · exact Option.noConfusion h
    next hpc =>
      split at h
      · simp only [Option.some.injEq, Prod.mk.injEq] at h
        obtain ⟨_, hls⟩ := h
        subst hls
        simp at hmem
      · split at h
        · simp only [Option.some.injEq, Prod.mk.injEq] at h
          obtain ⟨_, hls⟩ := h
          subst hls
          simp at hmem
        · exact Option.noConfusion h
    next hpc =>
      split at h
      · simp only [Option.some.injEq, Prod.mk.injEq] at h
        obtain ⟨_, hls⟩ := h
        subst hls
        simp at hmem
      · exact Option.noConfusion h
    next hpc => exact hpc
    · exact Option.noConfusion h
    · exact Option.noConfusion h

theorem step_running_mono (d : Driver) (ko : KbOracle) {s s' : Sys} {ls : List Label}
    (hstep : Step d ko s ls s') (hr : s.running = false) : s'.running = false := by
  cases hstep with
  | tx _ _ h =>
    rw [txStepF] at h
    split at h
    · exact Option.noConfusion h
    · split at h <;>
        (simp only [Option.some.injEq, Prod.mk.injEq] at h
         obtain ⟨hs', _⟩ := h
         subst hs'
         exact hr)
  | rx _ _ h =>
    rw [rxStepF] at h
    split at h
    · exact Option.noConfusion h
    · split at h
      · simp only at h
        split at h
        · split at h <;>
            (simp only [Option.some.injEq, Prod.mk.injEq] at h
             obtain ⟨hs', _⟩ := h
             subst hs'
             exact hr)
        · simp only [Option.some.injEq, Prod.mk.injEq] at h
          obtain ⟨hs', _⟩ := h
          subst hs'
          exact hr
      · simp only [Option.some.injEq, Prod.mk.injEq] at h
        obtain ⟨hs', _⟩ := h
        subst hs'
        exact hr
  | kb _ _ h =>
    rw [kbStepF] at h
    split at h
    · exact Option.noConfusion h
    · split at h
      · split at h
        · simp only [Option.some.injEq, Prod.mk.injEq] at h
          obtain ⟨hs', _⟩ := h
          subst hs'
          exact hr
        · simp only [Option.some.injEq, Prod.mk.injEq] at h
          obtain ⟨hs', _⟩ := h
          subst hs'
          exact hr
        · split at h <;>
            (simp only [Option.some.injEq, Prod.mk.injEq] at h
             obtain ⟨hs', _⟩ := h
             subst hs')
          · rfl
          · exact hr
      · simp only [Option.some.injEq, Prod.mk.injEq] at h
        obtain ⟨hs', _⟩ := h
        subst hs'
        exact hr
  | mn _ _ h =>
    rw [mainStepF] at h
    split at h <;>
      first
        | exact Option.noConfusion h
        | (split at h <;>
            first
              | exact Option.noConfusion h
              | (simp only [Option.some.injEq, Prod.mk.injEq] at h
                 obtain ⟨hs', _⟩ := h
                 subst hs'
                 exact hr)
              | (split at h <;>
                  first
                    | exact Option.noConfusion h
                    | (simp only [Option.some.injEq, Prod.mk.injEq] at h
                       obtain ⟨hs', _⟩ := h
                       subst hs'
                       exact hr)))
        | (simp only [Option.some.injEq, Prod.mk.injEq] at h
           obtain ⟨hs', _⟩ := h
           subst hs'
           exact hr)

theorem step_no_store_true (d : Driver) (ko : KbOracle) {s s' : Sys} {ls : List Label}
    (hstep : Step d ko s ls s') : Label.storeFlag true ∉ ls := by
  cases hstep with
  | tx _ _ h =>
    rw [txStepF] at h
    split at h
    · exact Option.noConfusion h
    · split at h <;>
        (simp only [Option.some.injEq, Prod.mk.injEq] at h
         obtain ⟨_, hls⟩ := h
         subst hls) <;>
        (by_cases hc : d.transmit s.txIdx > 0 <;> simp [hc])
  | rx _ _ h =>
    rw [rxStepF] at h
    split at h
    · exact Option.noConfusion h
    · split at h
      · simp only at h
        split at h
        · split at h <;>
            (simp only [Option.some.injEq, Prod.mk.injEq] at h
             obtain ⟨_, hls⟩ := h
             subst hls
             simp)
        · simp only [Option.some.injEq, Prod.mk.injEq] at h
          obtain ⟨_, hls⟩ := h
          subst hls
          simp
      · simp only [Option.some.injEq, Prod.mk.injEq] at h
        obtain ⟨_, hls⟩ := h
        subst hls
        simp
  | kb _ _ h =>
    rw [kbStepF] at h
    split at h
    · exact Option.noConfusion h
    · split at h
      · split at h
        · simp only [Option.some.injEq, Prod.mk.injEq] at h
          obtain ⟨_, hls⟩ := h
          subst hls
          simp
        · simp only [Option.some.injEq, Prod.mk.injEq] at h
          obtain ⟨_, hls⟩ := h
          subst hls
          simp
        · split at h <;>
            (simp only [Option.some.injEq, Prod.mk.injEq] at h
             obtain ⟨_, hls⟩ := h
             subst hls
             simp)
      · simp only [Option.some.injEq, Prod.mk.injEq] at h
        obtain ⟨_, hls⟩ := h
        subst hls
        simp
  | mn _ _ h =>
    rw [mainStepF] at h
    split at h <;>
      first
        | exact Option.noConfusion h
        | (split at h <;>
            first
              | exact Option.noConfusion h
              | (simp only [Option.some.injEq, Prod.mk.injEq] at h
                 obtain ⟨_, hls⟩ := h
                 subst hls
                 simp)
              | (split at h <;>
                  first
                    | exact Option.noConfusion h
                    | (simp only [Option.some.injEq, Prod.mk.injEq] at h
                       obtain ⟨_, hls⟩ := h
                       subst hls
                       simp)))
        | (simp only [Option.some.injEq, Prod.mk.injEq] at h
           obtain ⟨_, hls⟩ := h
           subst hls
           simp)

theorem trace_running_mono (d : Driver) (ko : KbOracle) {s : Sys} {L : List Label} {s' : Sys}
    (h : Trace d ko s L s') (hr : s.running = false) : s'.running = false := by
  induction h with
  | nil s => exact hr
  | cons s ls s1 L1 s2 hstep htr ih => exact ih (step_running_mono d ko hstep hr)

/-- Claim C3: in every interleaved execution from the Running entry
state, the number of close calls made equals 1 exactly when main has
completed its teardown (and is 0 before, so close happens at most once
and exactly once in a completed run); the joins main has emitted are
exactly those its program counter has passed, in the fixed order
transmitter, receiver, watcher; and any step of any reachable state that
emits a close call starts from a state in which all three activities
have finished. This holds for every driver, input oracle and
interleaving, hence regardless of which activity finished first or why. -/
theorem canalyst_c3_close_once (d : Driver) (ko : KbOracle) (L : List Label) (s : Sys)
    (h : Trace d ko initSys L s) :
    L.countP isClose = closeCountOf s.pc ∧
    L.countP isClose ≤ 1 ∧
    (s.pc = MainPC.finished → L.countP isClose = 1) ∧
    L.filter isJoin = joinsOf s.pc ∧
    (∀ L₁ s₁ ls s₂, Trace d ko initSys L₁ s₁ → Step d ko s₁ ls s₂ →
      (∃ dt di st, Label.closeCall dt di st ∈ ls) →
      s₁.txDone = true ∧ s₁.rxDone = true ∧ s₁.kbDone = true) := by
  obtain ⟨_, _, _, hcnt, hjoin⟩ := trace_inv d ko h
  refine ⟨hcnt, ?_, ?_, hjoin, ?_⟩
  · rw [hcnt, closeCountOf]
    split <;> omega
  · intro hfin
    rw [hcnt, hfin]
    rfl
  · rintro L₁ s₁ ls s₂ htr hstep ⟨dt, di, st, hmem⟩
    have hpc : s₁.pc = MainPC.closing := step_close_pc d ko hstep dt di st hmem
    obtain ⟨_, ⟨_, _, hp3, _, _⟩, _, _, _⟩ := trace_inv d ko htr
    exact hp3 hpc

set_option maxRecDepth 100000 in
/-- Claim C3, witness: a concrete completed interleaving (Ctrl+X pressed
at once, receiver exits, transmitter completes, main joins all three and
closes) makes exactly one close call. -/
theorem canalyst_c3_witness :
    (exec dAllOk koCtrlX schedFull initSys).2.countP isClose = 1 :=
  (canalyst_c3_close_once dAllOk koCtrlX _ _
    (exec_trace dAllOk koCtrlX schedFull initSys)).2.2.1 (by decide)

/-- Claim C5: the shared cancellation flag is monotonic. It starts true
(not cancelled) at Running entry; no step of any activity ever stores
true (the only store in the program is the watcher's store of false); a
single step from a cancelled state leaves it cancelled; and along every
execution from a cancelled state every later state is still cancelled,
so every subsequent flag read observes the cancelled value. -/
theorem canalyst_c5_flag_monotone (d : Driver) (ko : KbOracle) :
    initSys.running = true ∧
    (∀ s ls s', Step d ko s ls s' → Label.storeFlag true ∉ ls) ∧
    (∀ s ls s', Step d ko s ls s' → s.running = false → s'.running = false) ∧
    (∀ s L s', Trace d ko s L s' → s.running = false → s'.running = false) :=
  ⟨rfl, fun _ _ _ hstep => step_no_store_true d ko hstep,
   fun _ _ _ hstep hr => step_running_mono d ko hstep hr,
   fun _ _ _ htr hr => trace_running_mono d ko htr hr⟩

/-- Claim C5, witness: from a concrete cancelled state, running the
watcher one step leaves the flag cancelled. -/
theorem canalyst_c5_witness :
    (exec dAllOk koCtrlX [Tid.kb] (setRunning initSys false)).1.running = false :=
  (canalyst_c5_flag_monotone dAllOk koCtrlX).2.2.2 (setRunning initSys false) _ _
    (exec_trace dAllOk koCtrlX [Tid.kb] (setRunning initSys false)) rfl

end Canalyst
